import Mathlib

/-!
Verification of the session orchestration and speech I/O coordination layer of
the KET speaking-prep application.

The development shallowly embeds the relevant program units:
* the WAV container builder (createWavBlob in services/geminiService.ts),
* the audio stop routine (stopAllAudio),
* the text-to-speech coordinator with its request-id staleness protocol and
  text-keyed audio cache (playTextToSpeech),
* the recognition transcript assembly and submit logic (StudentBox),
* the turn-taking state machine of TestSession, and
* the evaluation entry point (evaluateSession).

Machine integers are modelled as Nat with explicit reduction modulo 2^w where
the DataView setters wrap; JavaScript strings are modelled as Lean strings, or
as lists of characters where whitespace trimming must be reasoned about;
fallible external operations are modelled as explicit oracle parameters.
-/

/-! ## WAV container builder (createWavBlob) -/

/-- Sample rate constant from the source: Gemini TTS is 24 kHz. -/
def SAMPLE_RATE : Nat := 24000

/-- Little-endian byte pair written by DataView.setUint16 (wraps modulo 2^16). -/
def u16le (v : Nat) : List Nat := [v % 256, v / 256 % 256]

/-- Little-endian byte quadruple written by DataView.setUint32 (wraps modulo 2^32). -/
def u32le (v : Nat) : List Nat :=
  [v % 256, v / 256 % 256, v / 65536 % 256, v / 16777216 % 256]

/-- Byte values written by the writeString helper (charCodeAt of each character). -/
def asciiCodes (s : String) : List Nat := s.toList.map Char.toNat

/-- Shallow embedding of createWavBlob: the 44-byte RIFF/WAVE header followed by
the PCM bytes unmodified.  The header fields appear at the exact offsets the
source writes them to (the writes cover offsets 0..43 with no gap, so the
buffer is the concatenation of the written fields). -/
def createWavBlob (pcmData : List Nat) : List Nat :=
  let numChannels := 1
  let bitsPerSample := 16
  let byteRate := SAMPLE_RATE * numChannels * bitsPerSample / 8
  let blockAlign := numChannels * bitsPerSample / 8
  let dataSize := pcmData.length
  asciiCodes "RIFF" ++ u32le (36 + dataSize) ++ asciiCodes "WAVE" ++
  asciiCodes "fmt " ++ u32le 16 ++ u16le 1 ++ u16le numChannels ++
  u32le SAMPLE_RATE ++ u32le byteRate ++ u16le blockAlign ++ u16le bitsPerSample ++
  asciiCodes "data" ++ u32le dataSize ++ pcmData

/-- Value denoted by the first four bytes of a list read as a little-endian
32-bit unsigned integer. -/
def readU32le : List Nat → Nat
  | b0 :: b1 :: b2 :: b3 :: _ => b0 + 256 * (b1 + 256 * (b2 + 256 * b3))
  | _ => 0

/-- Value denoted by the first two bytes of a list read as a little-endian
16-bit unsigned integer. -/
def readU16le : List Nat → Nat
  | b0 :: b1 :: _ => b0 + 256 * b1
  | _ => 0

theorem readU32le_u32le (v : Nat) (h : v < 4294967296) : readU32le (u32le v) = v := by
  simp only [u32le, readU32le]
  omega

theorem readU16le_u16le (v : Nat) (h : v < 65536) : readU16le (u16le v) = v := by
  simp only [u16le, readU16le]
  omega

/-- Normal form of the produced container: the 44 header bytes followed by the
PCM payload. -/
theorem createWavBlob_eq (pcmData : List Nat) :
    createWavBlob pcmData =
      82 :: 73 :: 70 :: 70 ::
      ((36 + pcmData.length) % 256) :: ((36 + pcmData.length) / 256 % 256) ::
        ((36 + pcmData.length) / 65536 % 256) :: ((36 + pcmData.length) / 16777216 % 256) ::
      87 :: 65 :: 86 :: 69 ::
      102 :: 109 :: 116 :: 32 ::
      16 :: 0 :: 0 :: 0 ::
      1 :: 0 ::
      1 :: 0 ::
      192 :: 93 :: 0 :: 0 ::
      128 :: 187 :: 0 :: 0 ::
      2 :: 0 ::
      16 :: 0 ::
      100 :: 97 :: 116 :: 97 ::
      (pcmData.length % 256) :: (pcmData.length / 256 % 256) ::
        (pcmData.length / 65536 % 256) :: (pcmData.length / 16777216 % 256) ::
      pcmData := rfl

/-- C3.  For every PCM input of N bytes the WAV container built by createWavBlob
is exactly 44 + N bytes; bytes 0-3 are the character codes of RIFF, bytes 4-7
little-endian equal 36 + N, bytes 8-11 are WAVE, bytes 12-15 are the fmt tag,
bytes 22-23 little-endian equal 1 (channel count), bytes 24-27 little-endian
equal 24000 (sample rate), bytes 36-39 are the data tag, bytes 40-43
little-endian equal N, and bytes 44 onward are the input PCM bytes unmodified.
The hypothesis 36 + N < 2^32 is the width of the 32-bit ChunkSize field the
source writes with DataView.setUint32. -/
theorem c3_wav_header (pcmData : List Nat) (h : 36 + pcmData.length < 4294967296) :
    (createWavBlob pcmData).length = 44 + pcmData.length ∧
    (createWavBlob pcmData).take 4 = asciiCodes "RIFF" ∧
    readU32le ((createWavBlob pcmData).drop 4) = 36 + pcmData.length ∧
    ((createWavBlob pcmData).drop 8).take 4 = asciiCodes "WAVE" ∧
    ((createWavBlob pcmData).drop 12).take 4 = asciiCodes "fmt " ∧
    readU16le ((createWavBlob pcmData).drop 22) = 1 ∧
    readU32le ((createWavBlob pcmData).drop 24) = 24000 ∧
    ((createWavBlob pcmData).drop 36).take 4 = asciiCodes "data" ∧
    readU32le ((createWavBlob pcmData).drop 40) = pcmData.length ∧
    (createWavBlob pcmData).drop 44 = pcmData := by
  rw [createWavBlob_eq]
  refine ⟨?_, rfl, ?_, rfl, rfl, rfl, rfl, rfl, ?_, rfl⟩
  · simp only [List.length_cons]
    omega
  · show (36 + pcmData.length) % 256 +
        256 * ((36 + pcmData.length) / 256 % 256 +
          256 * ((36 + pcmData.length) / 65536 % 256 +
            256 * ((36 + pcmData.length) / 16777216 % 256))) = 36 + pcmData.length
    omega
  · show pcmData.length % 256 +
        256 * (pcmData.length / 256 % 256 +
          256 * (pcmData.length / 65536 % 256 +
            256 * (pcmData.length / 16777216 % 256))) = pcmData.length
    omega

/-- Witness for C3 at the concrete three-byte PCM payload [1, 2, 3]. -/
theorem c3_wav_header_witness :
    (createWavBlob [1, 2, 3]).length = 44 + 3 ∧
    readU32le ((createWavBlob [1, 2, 3]).drop 4) = 39 ∧
    readU32le ((createWavBlob [1, 2, 3]).drop 40) = 3 ∧
    (createWavBlob [1, 2, 3]).drop 44 = [1, 2, 3] := by
  have h := c3_wav_header [1, 2, 3] (by decide)
  exact ⟨h.1, h.2.2.1, h.2.2.2.2.2.2.2.2.1, h.2.2.2.2.2.2.2.2.2⟩

/-! ## Stopping audio (stopAllAudio) -/

/-- State of an HTMLAudioElement as far as stopAllAudio touches it. -/
structure AudioElem where
  src : Option String
  paused : Bool
deriving DecidableEq

/-- Module-level playback state read and written by stopAllAudio: the
currentAudio handle and whether a speechSynthesis utterance is speaking. -/
structure AudioSt where
  current : Option AudioElem
  speaking : Bool
deriving DecidableEq

/-- Fault model for the platform primitives stopAllAudio invokes: each flag
makes the corresponding call raise, and speechAvailable models the
window.speechSynthesis presence test. -/
structure AudioFaults where
  pauseThrows : Bool
  srcAssignThrows : Bool
  removeAttrThrows : Bool
  cancelThrows : Bool
  speechAvailable : Bool
deriving DecidableEq

/-- Shallow embedding of stopAllAudio.  The first try block pauses the current
element, clears and removes its src, and nulls the handle; a raise at any point
keeps the mutations made so far and is swallowed by the catch (log and
continue).  The second block cancels the speech-synthesis fallback inside its
own try/catch.  The Except result type records whether an exception escapes the
function; the theorem shows none ever does. -/
def stopAllAudio (f : AudioFaults) (s : AudioSt) : Except String AudioSt :=
  let s1 :=
    match s.current with
    | none => s
    | some a =>
      if f.pauseThrows then s
      else
        let a1 : AudioElem := { a with paused := true }
        if f.srcAssignThrows then { s with current := some a1 }
        else
          let a2 : AudioElem := { a1 with src := some "" }
          if f.removeAttrThrows then { s with current := some a2 }
          else
            { s with current := none }
  if f.speechAvailable then
    if f.cancelThrows then Except.ok s1
    else Except.ok { s1 with speaking := false }
  else Except.ok s1

/-- Fault-free environment in which every platform primitive succeeds and the
speech-synthesis object is present. -/
def noAudioFaults (f : AudioFaults) : Prop :=
  f.pauseThrows = false ∧ f.srcAssignThrows = false ∧
  f.removeAttrThrows = false ∧ f.cancelThrows = false ∧ f.speechAvailable = true

instance : DecidablePred noAudioFaults := fun _ => by
  unfold noAudioFaults; infer_instance

/-- C9.  stopAllAudio never throws: for every playback state, including a null
handle and every combination of the underlying pause/detach/cancel operations
raising, the call completes normally; and in the fault-free environment it
silences the in-flight playback (the handle is dropped) and cancels the
fallback local-voice utterance. -/
theorem c9_stopall_total (f : AudioFaults) (s : AudioSt) :
    (stopAllAudio f s).isOk = true ∧
    (noAudioFaults f →
      stopAllAudio f s = Except.ok { current := none, speaking := false }) := by
  constructor
  · unfold stopAllAudio
    cases s.current <;> dsimp only <;>
      cases f.speechAvailable <;> cases f.cancelThrows <;>
      cases f.pauseThrows <;> cases f.srcAssignThrows <;> cases f.removeAttrThrows <;> rfl
  · rintro ⟨h1, h2, h3, h4, h5⟩
    obtain ⟨cur, sp⟩ := s
    unfold stopAllAudio
    rw [h1, h2, h3, h4, h5]
    cases cur <;> simp

/-- Witness for C9: a state with an active, unpaused element and a speaking
fallback utterance, with no faults, completes normally and is fully silenced. -/
theorem c9_stopall_total_witness :
    (stopAllAudio ⟨false, false, false, false, true⟩
        ⟨some ⟨some "blob:1", false⟩, true⟩).isOk = true ∧
    stopAllAudio ⟨false, false, false, false, true⟩ ⟨some ⟨some "blob:1", false⟩, true⟩ =
      Except.ok { current := none, speaking := false } := by
  have h := c9_stopall_total ⟨false, false, false, false, true⟩
    ⟨some ⟨some "blob:1", false⟩, true⟩
  exact ⟨h.1, h.2 (by decide)⟩

/-! ## Report data model (types.ts) -/

/-- Per-student evaluation result, from types.ts. -/
structure EvaluationResult where
  score : Nat
  feedback : String
  goodPoints : List String
  badPoints : List String
  suggestions : List String
deriving DecidableEq

/-- Full session report, from types.ts. -/
structure FullReport where
  studentA : EvaluationResult
  studentB : EvaluationResult
  generalFeedback : String
deriving DecidableEq

/-- Per-student answer store: questionId to transcript, in insertion order,
modelling a JavaScript object record. -/
structure StudentSessionData where
  answers : List (String × String)
deriving DecidableEq

/-- Session record for both students, from types.ts. -/
structure SessionData where
  studentA : StudentSessionData
  studentB : StudentSessionData
deriving DecidableEq

/-- Question of a daily plan, from types.ts (part and target are the display
strings the source uses). -/
structure Question where
  id : String
  text : String
  qpart : String
  target : String
deriving DecidableEq

/-- Daily plan, from types.ts. -/
structure DailyPlan where
  day : Nat
  topic : String
  questions : List Question
deriving DecidableEq

/-! ## Session evaluation entry point (evaluateSession) -/

/-- Zero-score report evaluateSession returns without any remote call when no
answers were recorded, verbatim from the source. -/
def zeroReport : FullReport :=
  { studentA :=
      { score := 0
        feedback := "No answers recorded."
        goodPoints := []
        badPoints := ["No speech input detected."]
        suggestions := ["Check microphone settings."] }
    studentB :=
      { score := 0
        feedback := "No answers recorded."
        goodPoints := []
        badPoints := ["No speech input detected."]
        suggestions := ["Check microphone settings."] }
    generalFeedback := "Session ended without any recorded answers." }

/-- Shallow embedding of evaluateSession.  The remote generate-content exchange
is an oracle parameter (its settled outcome); the second component counts how
many remote evaluation calls were issued. -/
def evaluateSession (remote : Except String FullReport) (_plan : DailyPlan)
    (sessionData : SessionData) : Except String FullReport × Nat :=
  let hasTomAnswers := sessionData.studentA.answers.length > 0
  let hasBellaAnswers := sessionData.studentB.answers.length > 0
  if ¬hasTomAnswers ∧ ¬hasBellaAnswers then (Except.ok zeroReport, 0)
  else (remote, 1)

/-- C10.  If both participants' answer maps are empty, evaluateSession returns
the fixed zero-score report (score 0 and feedback "No answers recorded." for
each participant) without issuing any remote evaluation call; and the remote
evaluator is contacted only when at least one participant has at least one
recorded answer. -/
theorem c10_empty_session_report (remote : Except String FullReport)
    (plan : DailyPlan) (sd : SessionData) :
    (sd.studentA.answers = [] → sd.studentB.answers = [] →
      evaluateSession remote plan sd = (Except.ok zeroReport, 0) ∧
      zeroReport.studentA.score = 0 ∧ zeroReport.studentB.score = 0 ∧
      zeroReport.studentA.feedback = "No answers recorded." ∧
      zeroReport.studentB.feedback = "No answers recorded.") ∧
    ((evaluateSession remote plan sd).2 ≠ 0 →
      sd.studentA.answers ≠ [] ∨ sd.studentB.answers ≠ []) := by
  constructor
  · intro hA hB
    refine ⟨?_, rfl, rfl, rfl, rfl⟩
    unfold evaluateSession
    rw [hA, hB]
    simp
  · intro h
    by_contra hc
    push_neg at hc
    obtain ⟨hA, hB⟩ := hc
    apply h
    unfold evaluateSession
    rw [hA, hB]
    simp

/-- Witness for C10 on the empty session record: the zero report is produced
and zero remote calls are made. -/
theorem c10_empty_session_report_witness :
    evaluateSession (Except.error "network") ⟨1, "Hobbies", []⟩ ⟨⟨[]⟩, ⟨[]⟩⟩ =
      (Except.ok zeroReport, 0) ∧
    zeroReport.studentA.score = 0 := by
  have h := (c10_empty_session_report (Except.error "network") ⟨1, "Hobbies", []⟩
    ⟨⟨[]⟩, ⟨[]⟩⟩).1 rfl rfl
  exact ⟨h.1, h.2.1⟩

/-! ## Keyed records (JavaScript object / Map semantics) -/

/-- Lookup in an insertion-ordered keyed record. -/
def assocGet {β : Type} : List (String × β) → String → Option β
  | [], _ => none
  | p :: rest, k => if p.1 = k then some p.2 else assocGet rest k

/-- Insertion-or-update with JavaScript object-spread / Map.set semantics: an
existing key keeps its position and gets the new value, a new key is appended. -/
def objSet {β : Type} (m : List (String × β)) (k : String) (v : β) : List (String × β) :=
  if (assocGet m k).isSome then
    m.map (fun p => if p.1 = k then (k, v) else p)
  else m ++ [(k, v)]

theorem assocGet_map_set {β : Type} (m : List (String × β)) (k : String) (v : β) :
    ∀ q, assocGet (m.map (fun p => if p.1 = k then (k, v) else p)) q =
      if k = q then ((assocGet m k).map fun _ => v) else assocGet m q := by
  induction m with
  | nil =>
    intro q
    by_cases h : k = q <;> simp [assocGet, h]
  | cons p rest ih =>
    intro q
    by_cases hpk : p.1 = k
    · by_cases hkq : k = q
      · simp [assocGet, List.map_cons, hpk, hkq]
      · have hpq : ¬ p.1 = q := by rw [hpk]; exact hkq
        simp [assocGet, List.map_cons, hpk, hkq, hpq, ih q]
    · by_cases hpq : p.1 = q
      · have hkq : ¬ k = q := fun h => hpk (by rw [h, hpq])
        have hqk : ¬ q = k := fun h => hkq h.symm
        simp [assocGet, List.map_cons, hpk, hpq, hkq, hqk]
      · by_cases hkq : k = q
        · subst hkq
          simp [assocGet, List.map_cons, hpk, hpq, ih k]
        · simp [assocGet, List.map_cons, hpk, hpq, hkq, ih q]

theorem assocGet_append_single {β : Type} (m : List (String × β)) (k : String) (v : β) :
    ∀ q, assocGet (m ++ [(k, v)]) q =
      match assocGet m q with
      | some w => some w
      | none => if k = q then some v else none := by
  induction m with
  | nil => intro q; by_cases h : k = q <;> simp [assocGet, h]
  | cons p rest ih =>
    intro q
    by_cases hpq : p.1 = q <;> simp [assocGet, hpq, ih q]

/-- Setting key k yields v at k. -/
theorem assocGet_objSet_self {β : Type} (m : List (String × β)) (k : String) (v : β) :
    assocGet (objSet m k v) k = some v := by
  unfold objSet
  by_cases h : (assocGet m k).isSome
  · rw [if_pos h, assocGet_map_set]
    obtain ⟨w, hw⟩ := Option.isSome_iff_exists.mp h
    simp [hw]
  · rw [if_neg h, assocGet_append_single]
    rw [Option.not_isSome_iff_eq_none] at h
    simp [h]

/-- Setting key k leaves every other key unchanged. -/
theorem assocGet_objSet_ne {β : Type} (m : List (String × β)) (k : String) (v : β)
    (q : String) (hne : k ≠ q) : assocGet (objSet m k v) q = assocGet m q := by
  unfold objSet
  by_cases h : (assocGet m k).isSome
  · rw [if_pos h, assocGet_map_set, if_neg hne]
  · rw [if_neg h, assocGet_append_single]
    cases hq : assocGet m q <;> simp [hne]

/-! ## Text-to-speech coordinator (playTextToSpeech) -/

/-- Module-level coordinator state of the speech-synthesis gateway:
latestTtsRequestId, the currentAudio handle (owning request id and the object
URL it plays), whether the fallback voice is speaking, the text-keyed audio
cache (text to object URL), and a ghost counter of remote synthesis calls. -/
structure TtsState where
  latest : Nat
  current : Option (Nat × Nat)
  speaking : Bool
  cache : List (String × Nat)
  remoteCalls : Nat
deriving DecidableEq

/-- Suspension points of one playTextToSpeech call: awaiting the remote
synthesis response, or awaiting the audio.play promise. -/
inductive TtsCont
  | netPending (id : Nat) (text : String)
  | playPending (id : Nat)
deriving DecidableEq

/-- Outcome of running one synchronous segment of a call: the call either
returned a boolean or suspended. -/
inductive TtsOutcome
  | done (b : Bool)
  | waiting (k : TtsCont)
deriving DecidableEq

/-- Environment of one call: the settled remote synthesis outcome (none means
the network call rejected, some none means a fulfilled response without audio
payload, some (some pcm) carries the PCM bytes), the audio.play outcome, and
the browser speech-synthesis fallback behaviour. -/
structure TtsEnv where
  netResult : Option (Option (List Nat))
  playOk : Bool
  speechAvailable : Bool
  speakThrows : Bool
deriving DecidableEq

/-- Effect of the internal stopAllAudio() call on the coordinator state in the
fault-free environment: the current handle is dropped and the fallback voice is
cancelled. -/
def stopAllEffect (s : TtsState) : TtsState :=
  { s with current := none, speaking := false }

/-- Synchronous prefix of playTextToSpeech, up to its first suspension point:
allocate the next request id, then either take the cache-hit path (stop current
audio, re-check staleness, install the new Audio element and suspend on its
play promise) or issue the remote synthesis request and suspend on it. -/
def playTtsStart (text : String) (s : TtsState) : TtsOutcome × TtsState :=
  let requestId := s.latest + 1
  let s := { s with latest := requestId }
  match assocGet s.cache text with
  | some audioUrl =>
    let s := stopAllEffect s
    if requestId ≠ s.latest then (.done false, s)
    else
      let s := { s with current := some (requestId, audioUrl) }
      (.waiting (.playPending requestId), s)
  | none =>
    (.waiting (.netPending requestId text), { s with remoteCalls := s.remoteCalls + 1 })

/-- Catch block of playTextToSpeech: if still the latest request, fall back to
the browser voice (stop current audio, speak; a raise from speak yields false). -/
def playTtsCatch (env : TtsEnv) (requestId : Nat) (_text : String) (s : TtsState) :
    TtsOutcome × TtsState :=
  if requestId ≠ s.latest then (.done false, s)
  else if env.speechAvailable then
    let s := stopAllEffect s
    if env.speakThrows then (.done false, s)
    else (.done true, { s with speaking := true })
  else (.done false, s)

/-- Resumption of a call suspended at the remote synthesis request: a rejected
call goes to the catch block; a fulfilled one first re-checks staleness, then
on a missing payload throws into the catch block, and otherwise builds the WAV
object URL, caches it under the text, stops current audio, re-checks staleness
and suspends on the play promise of the freshly installed Audio element.  The
object URL created for request id r is modelled as the token r. -/
def playTtsResumeNet (env : TtsEnv) (requestId : Nat) (text : String)
    (s : TtsState) : TtsOutcome × TtsState :=
  match env.netResult with
  | none => playTtsCatch env requestId text s
  | some payload =>
    if requestId ≠ s.latest then (.done false, s)
    else
      match payload with
      | none => playTtsCatch env requestId text s
      | some _pcm =>
        let audioUrl := requestId
        let s := { s with cache := objSet s.cache text audioUrl }
        let s := stopAllEffect s
        if requestId ≠ s.latest then (.done false, s)
        else
          let s := { s with current := some (requestId, audioUrl) }
          (.waiting (.playPending requestId), s)

/-- Resumption of a call suspended at the play promise: the local try/catch
turns the settled play outcome into the boolean result without touching the
shared state. -/
def playTtsResumePlay (playOk : Bool) (s : TtsState) : TtsOutcome × TtsState :=
  (.done playOk, s)

/-- Sequential (non-interleaved) run of one playTextToSpeech call to
completion under the given environment. -/
def playTextToSpeech (env : TtsEnv) (text : String) (s : TtsState) : Bool × TtsState :=
  match playTtsStart text s with
  | (.done b, s1) => (b, s1)
  | (.waiting (.playPending _), s1) =>
    match playTtsResumePlay env.playOk s1 with
    | (.done b, s2) => (b, s2)
    | (.waiting _, s2) => (false, s2)
  | (.waiting (.netPending requestId t), s1) =>
    match playTtsResumeNet env requestId t s1 with
    | (.done b, s2) => (b, s2)
    | (.waiting (.playPending _), s2) =>
      match playTtsResumePlay env.playOk s2 with
      | (.done b, s3) => (b, s3)
      | (.waiting _, s3) => (false, s3)
    | (.waiting (.netPending _ _), s2) => (false, s2)

/-- Initial coordinator state for the staleness counterexample: no playback, a
cache already holding the text of the first question under object URL 100. -/
def c1S0 : TtsState :=
  { latest := 0, current := none, speaking := false,
    cache := [("Do you like sports?", 100)], remoteCalls := 0 }

/-- C1, counterexample to the claim as stated.  Call id 1 plays a cached text:
its synchronous prefix installs the currentAudio handle and suspends on the
play promise (its asynchronous work).  Call id 2 is then issued, before id 1
resolves.  When id 1's play promise settles successfully its resolution
returns true, not false, so a call overtaken while suspended at the play
promise does not return false as the claim demands. -/
theorem c1_claim_counterexample :
    (playTtsStart "Do you like sports?" c1S0).1 = .waiting (.playPending 1) ∧
    ((playTtsStart "Do you like sports?" c1S0).2).current = some (1, 100) ∧
    (playTtsStart "What is your hobby?"
        (playTtsStart "Do you like sports?" c1S0).2).1 =
      .waiting (.netPending 2 "What is your hobby?") ∧
    (playTtsResumePlay true
        (playTtsStart "What is your hobby?"
          (playTtsStart "Do you like sports?" c1S0).2).2).1 = .done true := by
  decide

/-- C1, amended.  Every call to playTextToSpeech strictly bumps the module's
latest issued request id before any asynchronous work; resolutions never
change it; a call whose id is no longer the latest when its remote synthesis
request settles resolves to false without any state change (in particular it
does not start playback and does not set the currentAudio handle); and a
resolution of the play promise never mutates the shared state at all.
Consequently, when id 2 is issued while id 1 is suspended at the synthesis
network call, id 1's resolution is a no-op returning false. -/
theorem c1_staleness_amended :
    (∀ text s, ((playTtsStart text s).2).latest = s.latest + 1) ∧
    (∀ env requestId text s, ((playTtsResumeNet env requestId text s).2).latest = s.latest) ∧
    (∀ env requestId text s, s.latest ≠ requestId →
      playTtsResumeNet env requestId text s = (.done false, s)) ∧
    (∀ playOk s, playTtsResumePlay playOk s = (.done playOk, s)) := by
  refine ⟨?_, ?_, ?_, fun _ _ => rfl⟩
  · intro text s
    unfold playTtsStart stopAllEffect
    dsimp only
    cases h : assocGet s.cache text <;> simp [h]
  · intro env requestId text s
    unfold playTtsResumeNet playTtsCatch stopAllEffect
    rcases env.netResult with _ | payload <;> dsimp only
    · repeat' split
      all_goals rfl
    · repeat' split
      all_goals rfl
  · intro env requestId text s hne
    have h' : requestId ≠ s.latest := fun h => hne h.symm
    unfold playTtsResumeNet playTtsCatch
    rcases env.netResult with _ | payload <;> dsimp only
    · rw [if_pos h']
    · rw [if_pos h']

/-- Shared state in which request id 1 is stale: two further requests have
been issued since (latest is 2). -/
def c1Sw : TtsState := { latest := 2, current := none, speaking := false, cache := [], remoteCalls := 1 }

/-- Witness for C1: a concrete stale resolution of the synthesis request of
call id 1 is a no-op returning false. -/
theorem c1_staleness_amended_witness :
    playTtsResumeNet ⟨some (some [1, 2]), true, true, false⟩ 1 "Old question" c1Sw =
      (.done false, c1Sw) :=
  c1_staleness_amended.2.2.1 ⟨some (some [1, 2]), true, true, false⟩ 1 "Old question" c1Sw
    (by decide)

/-- Closed form of a sequential cache-miss run with a successful synthesis
response: the call bumps the id, issues one remote call, caches the freshly
created object URL under the text, installs the handle and resolves to the
play outcome. -/
theorem playTextToSpeech_miss (env : TtsEnv) (text : String) (s : TtsState)
    (pcm : List Nat) (hmiss : assocGet s.cache text = none)
    (hnet : env.netResult = some (some pcm)) :
    playTextToSpeech env text s =
      (env.playOk,
        { latest := s.latest + 1,
          current := some (s.latest + 1, s.latest + 1),
          speaking := false,
          cache := objSet s.cache text (s.latest + 1),
          remoteCalls := s.remoteCalls + 1 }) := by
  unfold playTextToSpeech playTtsStart playTtsResumeNet playTtsResumePlay stopAllEffect
  dsimp only
  rw [hmiss, hnet]
  simp

/-- Closed form of a sequential cache-hit run: no remote call, the cached
object URL is installed in the handle and the call resolves to the play
outcome. -/
theorem playTextToSpeech_hit (env : TtsEnv) (text : String) (s : TtsState)
    (u : Nat) (hhit : assocGet s.cache text = some u) :
    playTextToSpeech env text s =
      (env.playOk,
        { latest := s.latest + 1,
          current := some (s.latest + 1, u),
          speaking := false,
          cache := s.cache,
          remoteCalls := s.remoteCalls }) := by
  unfold playTextToSpeech playTtsStart playTtsResumePlay stopAllEffect
  dsimp only
  rw [hhit]
  simp

/-- C8.  Calling the top-level play operation twice with identical text
triggers exactly one remote synthesis call: the first successful call stores
the synthesized object URL in the cache keyed by the exact text, the second
call reuses exactly that cached URL (it becomes the second call's currentAudio
source) without issuing any further remote call, and every cache entry present
before a call is still present, unchanged, afterwards (entries are never
evicted). -/
theorem c8_cache_idempotent (env1 env2 : TtsEnv) (text : String) (s : TtsState)
    (pcm : List Nat) (k : String) (v : Nat)
    (hmiss : assocGet s.cache text = none)
    (hnet : env1.netResult = some (some pcm))
    (hk : assocGet s.cache k = some v) :
    assocGet (playTextToSpeech env1 text s).2.cache text = some (s.latest + 1) ∧
    (playTextToSpeech env1 text s).2.remoteCalls = s.remoteCalls + 1 ∧
    (playTextToSpeech env2 text (playTextToSpeech env1 text s).2).2.remoteCalls =
      (playTextToSpeech env1 text s).2.remoteCalls ∧
    (playTextToSpeech env2 text (playTextToSpeech env1 text s).2).2.current =
      some ((playTextToSpeech env1 text s).2.latest + 1, s.latest + 1) ∧
    assocGet (playTextToSpeech env1 text s).2.cache k = some v ∧
    assocGet (playTextToSpeech env2 text (playTextToSpeech env1 text s).2).2.cache k = some v := by
  have hktext : k ≠ text := by
    intro h
    rw [h, hmiss] at hk
    exact Option.noConfusion hk
  rw [playTextToSpeech_miss env1 text s pcm hmiss hnet]
  have hches : assocGet (objSet s.cache text (s.latest + 1)) text = some (s.latest + 1) :=
    assocGet_objSet_self s.cache text (s.latest + 1)
  have hrun2 := playTextToSpeech_hit env2 text
    ({ latest := s.latest + 1,
       current := some (s.latest + 1, s.latest + 1),
       speaking := false,
       cache := objSet s.cache text (s.latest + 1),
       remoteCalls := s.remoteCalls + 1 }) (s.latest + 1) hches
  rw [hrun2]
  have hkpres : assocGet (objSet s.cache text (s.latest + 1)) k = some v := by
    rw [assocGet_objSet_ne s.cache text (s.latest + 1) k (fun h => hktext h.symm)]
    exact hk
  exact ⟨hches, rfl, rfl, rfl, hkpres, hkpres⟩

/-- Witness for C8 on a concrete state whose cache already holds an unrelated
entry: one remote call on the first play of a new text, none on the second,
the second call reuses the URL created by the first, and the unrelated entry
survives both calls. -/
theorem c8_cache_idempotent_witness :
    assocGet (playTextToSpeech ⟨some (some [7]), true, true, false⟩ "New question"
        ⟨3, none, false, [("Old question", 9)], 1⟩).2.cache "New question" = some 4 ∧
    (playTextToSpeech ⟨some (some [7]), true, true, false⟩ "New question"
        ⟨3, none, false, [("Old question", 9)], 1⟩).2.remoteCalls = 2 ∧
    (playTextToSpeech ⟨none, false, true, false⟩ "New question"
        (playTextToSpeech ⟨some (some [7]), true, true, false⟩ "New question"
          ⟨3, none, false, [("Old question", 9)], 1⟩).2).2.remoteCalls =
      (playTextToSpeech ⟨some (some [7]), true, true, false⟩ "New question"
        ⟨3, none, false, [("Old question", 9)], 1⟩).2.remoteCalls ∧
    (playTextToSpeech ⟨none, false, true, false⟩ "New question"
        (playTextToSpeech ⟨some (some [7]), true, true, false⟩ "New question"
          ⟨3, none, false, [("Old question", 9)], 1⟩).2).2.current = some (5, 4) ∧
    assocGet (playTextToSpeech ⟨some (some [7]), true, true, false⟩ "New question"
        ⟨3, none, false, [("Old question", 9)], 1⟩).2.cache "Old question" = some 9 ∧
    assocGet (playTextToSpeech ⟨none, false, true, false⟩ "New question"
        (playTextToSpeech ⟨some (some [7]), true, true, false⟩ "New question"
          ⟨3, none, false, [("Old question", 9)], 1⟩).2).2.cache "Old question" = some 9 := by
  have h := c8_cache_idempotent ⟨some (some [7]), true, true, false⟩ ⟨none, false, true, false⟩
    "New question" ⟨3, none, false, [("Old question", 9)], 1⟩ [7] "Old question" 9
    (by decide) rfl (by decide)
  exact h

/-! ## Transcript assembly (StudentBox recognition handling) -/

/-- Whitespace test used by JavaScript String.prototype.trim, restricted to the
common whitespace characters. -/
def isWs (c : Char) : Bool := c = ' ' || c = '\t' || c = '\n' || c = '\r'

/-- JavaScript strings, modelled as lists of characters so that whitespace
trimming is amenable to proof. -/
abbrev Str := List Char

/-- JavaScript String.prototype.trim: strip whitespace from both ends. -/
def trim (l : Str) : Str := (l.dropWhile isWs).rdropWhile isWs

theorem trim_nil : trim [] = [] := rfl

theorem dropWhile_eq_self_of_head (p : Char → Bool) (l : Str)
    (h : ∀ c, l.head? = some c → p c = false) : l.dropWhile p = l := by
  cases l with
  | nil => rfl
  | cons a t =>
    have ha := h a rfl
    simp [List.dropWhile_cons, ha]

theorem head_false_of_dropWhile_eq_self (p : Char → Bool) (l : Str)
    (h : l.dropWhile p = l) : ∀ c, l.head? = some c → p c = false := by
  cases l with
  | nil => intro c hc; exact Option.noConfusion hc
  | cons a t =>
    intro c hc
    have hac : a = c := Option.some.inj hc
    subst hac
    by_cases pa : p a
    · rw [List.dropWhile_cons, if_pos pa] at h
      have hle := (List.dropWhile_suffix (l := t) p).length_le
      rw [h] at hle
      simp at hle
    · simpa using pa

theorem dropWhile_append_of_ne (p : Char → Bool) (a b : Str) (hne : a ≠ [])
    (ha : a.dropWhile p = a) : (a ++ b).dropWhile p = a ++ b := by
  cases a with
  | nil => exact absurd rfl hne
  | cons c t =>
    have hc := head_false_of_dropWhile_eq_self p (c :: t) ha c rfl
    simp [List.dropWhile_cons, hc]

theorem dropWhile_append_self (p : Char → Bool) (a b : Str)
    (ha : a.dropWhile p = a) (hb : b.dropWhile p = b) :
    (a ++ b).dropWhile p = a ++ b := by
  cases a with
  | nil => simpa using hb
  | cons c t => exact dropWhile_append_of_ne p (c :: t) b (List.cons_ne_nil c t) ha

theorem rdropWhile_eq_self_iff_rev (p : Char → Bool) (l : Str) :
    l.rdropWhile p = l ↔ l.reverse.dropWhile p = l.reverse := by
  rw [List.rdropWhile, List.reverse_eq_iff]

/-- Trim fixes a list exactly when dropping whitespace from either end fixes it. -/
theorem trim_eq_self_iff (l : Str) :
    trim l = l ↔ l.dropWhile isWs = l ∧ l.rdropWhile isWs = l := by
  constructor
  · intro h
    have h1 : l.dropWhile isWs = l := by
      have hp : (trim l).length ≤ (l.dropWhile isWs).length :=
        (List.rdropWhile_prefix isWs _).length_le
      have hs : (l.dropWhile isWs).length ≤ l.length :=
        (List.dropWhile_suffix isWs).length_le
      have hlen : (l.dropWhile isWs).length = l.length := by rw [h] at hp; omega
      exact (List.dropWhile_suffix isWs).eq_of_length hlen
    refine ⟨h1, ?_⟩
    rw [trim, h1] at h
    exact h
  · rintro ⟨h1, h2⟩
    rw [trim, h1, h2]

theorem prefix_head? (a b : Str) (h : a <+: b) (ha : a ≠ []) : b.head? = a.head? := by
  obtain ⟨t, rfl⟩ := h
  exact List.head?_append_of_ne_nil a ha

/-- Trimming is idempotent. -/
theorem trim_trim (l : Str) : trim (trim l) = trim l := by
  have h1 : (trim l).dropWhile isWs = trim l := by
    apply dropWhile_eq_self_of_head
    intro c hc
    have hne : trim l ≠ [] := by
      intro h
      rw [h] at hc
      exact Option.noConfusion hc
    have hpre : (trim l) <+: (l.dropWhile isWs) := List.rdropWhile_prefix isWs _
    have hhd : (l.dropWhile isWs).head? = (trim l).head? := prefix_head? _ _ hpre hne
    have hidem := List.dropWhile_idempotent isWs l
    exact head_false_of_dropWhile_eq_self isWs (l.dropWhile isWs) hidem c (hhd.symm ▸ hc)
  conv_lhs => rw [trim, h1]
  rw [trim, List.rdropWhile_idempotent]

/-- Appending trim-fixed strings yields a trim-fixed string. -/
theorem trim_append_self (a b : Str) (ha : trim a = a) (hb : trim b = b) :
    trim (a ++ b) = a ++ b := by
  obtain ⟨ha1, ha2⟩ := (trim_eq_self_iff a).mp ha
  obtain ⟨hb1, hb2⟩ := (trim_eq_self_iff b).mp hb
  rw [trim_eq_self_iff]
  refine ⟨dropWhile_append_self isWs a b ha1 hb1, ?_⟩
  rw [rdropWhile_eq_self_iff_rev] at ha2 hb2 ⊢
  rw [List.reverse_append]
  exact dropWhile_append_self isWs b.reverse a.reverse hb2 ha2

/-- Merging a trim-fixed accumulator with a nonempty trim-fixed chunk across a
single separating space, then trimming, keeps everything except that an empty
accumulator contributes nothing. -/
theorem trim_sep (acc g : Str) (hacc : trim acc = acc) (hg : trim g = g)
    (hgne : g ≠ []) :
    trim (acc ++ ' ' :: g) = if acc = [] then g else acc ++ ' ' :: g := by
  obtain ⟨hg1, hg2⟩ := (trim_eq_self_iff g).mp hg
  by_cases ha : acc = []
  · subst ha
    rw [if_pos rfl, List.nil_append, trim]
    have hstep : (' ' :: g).dropWhile isWs = g.dropWhile isWs := by
      simp [List.dropWhile_cons, isWs]
    rw [hstep, hg1, hg2]
  · rw [if_neg ha]
    obtain ⟨hacc1, _⟩ := (trim_eq_self_iff acc).mp hacc
    rw [trim_eq_self_iff]
    refine ⟨dropWhile_append_of_ne isWs acc (' ' :: g) ha hacc1, ?_⟩
    rw [rdropWhile_eq_self_iff_rev]
    have hgr : g.reverse.dropWhile isWs = g.reverse :=
      (rdropWhile_eq_self_iff_rev isWs g).mp hg2
    have hshape : (acc ++ ' ' :: g).reverse = (g.reverse ++ [' ']) ++ acc.reverse := by
      simp
    rw [hshape]
    apply dropWhile_append_of_ne
    · simp
    · exact dropWhile_append_of_ne isWs g.reverse [' '] (by simp [hgne]) hgr

/-- Space-joined concatenation of chunks, written as the spec describes it. -/
def spaceJoin : List Str → Str
  | [] => []
  | [g] => g
  | g :: g2 :: gs => g ++ ' ' :: spaceJoin (g2 :: gs)

theorem spaceJoin_cons_cons (a g : Str) (ys : List Str) :
    spaceJoin (a :: g :: ys) = a ++ ' ' :: spaceJoin (g :: ys) := rfl

theorem spaceJoin_sep_head (a g : Str) (ys : List Str) :
    spaceJoin ((a ++ ' ' :: g) :: ys) = a ++ ' ' :: spaceJoin (g :: ys) := by
  cases ys with
  | nil => rfl
  | cons y ys => simp [spaceJoin, List.append_assoc]

/-- Concatenation of the final segments of one recognition event batch, in
order, exactly as the onresult loop accumulates newFinal. -/
def batchFinal (results : List (Str × Bool)) : Str :=
  results.foldl (fun nf sg => if sg.2 then nf ++ sg.1 else nf) []

/-- Concatenation of the non-final segments of one recognition event batch,
exactly as the onresult loop accumulates newInterim. -/
def batchInterim (results : List (Str × Bool)) : Str :=
  results.foldl (fun ni sg => if sg.2 then ni else ni ++ sg.1) []

/-- Shallow embedding of the recognition.onresult handler acting on the
(fullTranscript, interimTranscript) pair: a nonempty newFinal is appended to
the cumulative transcript across a space and the result trimmed; the interim
preview is replaced wholesale by the batch's interim concatenation. -/
def onresult (st : Str × Str) (results : List (Str × Bool)) : Str × Str :=
  (if batchFinal results ≠ [] then trim (st.1 ++ ' ' :: batchFinal results) else st.1,
   batchInterim results)

/-- State of the transcript refs after a sequence of recognition result
batches, starting from the cleared per-question state. -/
def runRecognition (batches : List (List (Str × Bool))) : Str × Str :=
  batches.foldl onresult ([], [])

theorem batchFinal_trimFixed_go (rs : List (Str × Bool)) :
    ∀ acc, trim acc = acc → (∀ sg ∈ rs, sg.2 = true → trim sg.1 = sg.1) →
      trim (rs.foldl (fun nf sg => if sg.2 then nf ++ sg.1 else nf) acc) =
        rs.foldl (fun nf sg => if sg.2 then nf ++ sg.1 else nf) acc := by
  induction rs with
  | nil => intro acc hacc _; exact hacc
  | cons sg rs ih =>
    intro acc hacc hseg
    rw [List.foldl_cons]
    by_cases h2 : sg.2
    · rw [if_pos h2]
      exact ih (acc ++ sg.1) (trim_append_self acc sg.1 hacc (hseg sg (List.mem_cons_self sg rs) h2))
        (fun t ht h => hseg t (List.mem_cons_of_mem sg ht) h)
    · rw [if_neg h2]
      exact ih acc hacc (fun t ht h => hseg t (List.mem_cons_of_mem sg ht) h)

/-- The per-batch final concatenation is trim-fixed whenever every final
segment of the batch is. -/
theorem batchFinal_trimFixed (rs : List (Str × Bool))
    (h : ∀ sg ∈ rs, sg.2 = true → trim sg.1 = sg.1) :
    trim (batchFinal rs) = batchFinal rs :=
  batchFinal_trimFixed_go rs [] trim_nil h

theorem runRecognition_fst_go (batches : List (List (Str × Bool))) :
    ∀ st : Str × Str,
      (batches.foldl onresult st).1 =
        batches.foldl
          (fun a b => if batchFinal b ≠ [] then trim (a ++ ' ' :: batchFinal b) else a)
          st.1 := by
  induction batches with
  | nil => intro st; rfl
  | cons b bs ih => intro st; exact ih (onresult st b)

theorem fold_trim_spaceJoin (gs : List Str) :
    ∀ acc : Str, trim acc = acc → (∀ g ∈ gs, trim g = g) →
      gs.foldl (fun a g => if g ≠ [] then trim (a ++ ' ' :: g) else a) acc =
        spaceJoin ((if acc = [] then [] else [acc]) ++ gs.filter (fun g => !g.isEmpty)) := by
  induction gs with
  | nil =>
    intro acc hacc _
    by_cases ha : acc = [] <;> simp [ha, spaceJoin]
  | cons g gs ih =>
    intro acc hacc hgs
    have hgfix : trim g = g := hgs g (List.mem_cons_self g gs)
    have htail : ∀ x ∈ gs, trim x = x := fun x hx => hgs x (List.mem_cons_of_mem g hx)
    rw [List.foldl_cons]
    by_cases hg : g = []
    · subst hg
      rw [if_neg (by simp), ih acc hacc htail]
      simp [List.filter_cons]
    · rw [if_pos hg]
      have hcombined := trim_sep acc g hacc hgfix hg
      by_cases ha : acc = []
      · subst ha
        rw [if_pos rfl] at hcombined
        rw [hcombined, ih g hgfix htail]
        simp [List.filter_cons, hg, List.isEmpty_iff]
      · rw [if_neg ha] at hcombined
        rw [hcombined]
        have hne : acc ++ ' ' :: g ≠ [] := by simp
        have hfix : trim (acc ++ ' ' :: g) = acc ++ ' ' :: g := by
          conv_lhs => rw [← hcombined]
          rw [trim_trim, hcombined]
        rw [ih (acc ++ ' ' :: g) hfix htail]
        have hgfilter : List.filter (fun x => !List.isEmpty x) (g :: gs) =
            g :: List.filter (fun x => !List.isEmpty x) gs := by
          simp [List.filter_cons, List.isEmpty_iff, hg]
        rw [if_neg hne, if_neg ha, hgfilter, List.singleton_append, List.singleton_append,
          spaceJoin_sep_head, spaceJoin_cons_cons]

/-! ## Submit path (StudentBox handleSubmit) -/

/-- Inputs handleSubmit reads: the cumulative final transcript ref, the pending
interim preview, manual-entry state, and whether a recognition session is
running and instantiated. -/
structure SubmitInput where
  fullTranscript : Str
  interim : Str
  isManualMode : Bool
  manualText : Str
  isRecording : Bool
  hasRecognitionInstance : Bool

/-- Outcome of handleSubmit: the empty-answer error (no answer recorded), or
the delivered answer text together with whether a running recognition session
was aborted on the way out. -/
inductive SubmitResult
  | emptyAnswer
  | answered (text : Str) (abortedRecognition : Bool)
deriving DecidableEq

/-- Shallow embedding of handleSubmit: start from the transcript ref (or, in
manual mode, the typed buffer), merge a pending interim across a space and
trim, fail on a blank result, otherwise abort a running recognition session
and deliver the trimmed text.  Delivering the text is the only path that
invokes onAnswerComplete in the source. -/
def handleSubmit (i : SubmitInput) : SubmitResult :=
  let finalText := if i.isManualMode then i.manualText else i.fullTranscript
  let finalText :=
    if i.interim ≠ [] ∧ i.isManualMode = false then trim (finalText ++ ' ' :: i.interim)
    else finalText
  if trim finalText = [] then .emptyAnswer
  else .answered (trim finalText) (i.isRecording && i.hasRecognitionInstance)

/-- Modelled from the spec: the answer submit is described to deliver — the
final transcript concatenated with any still-pending interim text (or, in
manual mode, the typed buffer), trimmed. -/
def submitSpecText (i : SubmitInput) : Str :=
  if i.isManualMode then trim i.manualText
  else if i.interim = [] then trim i.fullTranscript
  else trim (i.fullTranscript ++ ' ' :: i.interim)

/-- C7.  submit computes the final transcript concatenated with any pending
interim text (or, in manual mode, the typed buffer), trims it, fails with the
empty-answer error without recording any answer exactly when the result is
blank, and otherwise aborts a still-running recognition session (precisely
when one is recording and instantiated) and delivers exactly the trimmed text. -/
theorem c7_submit_behavior (i : SubmitInput) :
    handleSubmit i =
      if submitSpecText i = [] then .emptyAnswer
      else .answered (submitSpecText i) (i.isRecording && i.hasRecognitionInstance) := by
  unfold handleSubmit submitSpecText
  by_cases hm : i.isManualMode
  · simp [hm]
  · have hm' : i.isManualMode = false := by simpa using hm
    by_cases hi : i.interim = []
    · simp [hm', hi]
    · simp only [hm', hi, if_false, Bool.false_eq_true, ne_eq, not_false_eq_true, and_self,
        if_true, trim_trim]

/-! ## Claim C4: transcript merge across batches -/

/-- Modelled from the claim's words: the space-joined, trimmed concatenation of
all final segments seen so far, taken segment by segment. -/
def claimedFullTranscript (batches : List (List (Str × Bool))) : Str :=
  trim (spaceJoin (((batches.flatten).filter (fun sg => sg.2)).map Prod.fst))

/-- C4, counterexample to the claim as stated.  A single batch delivering the
two final segments Hello and there makes the handler concatenate them without
a separator (newFinal is built by string concatenation inside one event), so
the cumulative transcript is Hellothere, not the space-joined Hello there the
claim demands for every sequence of batches. -/
theorem c4_claim_counterexample :
    (runRecognition [[("Hello".toList, true), ("there".toList, true)]]).1 =
      "Hellothere".toList ∧
    claimedFullTranscript [[("Hello".toList, true), ("there".toList, true)]] =
      "Hello there".toList ∧
    (runRecognition [[("Hello".toList, true), ("there".toList, true)]]).1 ≠
      claimedFullTranscript [[("Hello".toList, true), ("there".toList, true)]] := by
  decide

/-- C4, amended.  The cumulative final transcript equals the space-join of the
per-batch concatenations of final segments (each batch contributes its final
segments concatenated without separator; empty contributions are skipped),
provided the recognition segments carry no surrounding whitespace; the interim
preview is replaced wholesale on each batch (never appended); and with final
segments Hello and there arriving in separate batches and pending interim
friend, submit yields Hello there friend, aborting the running recognition. -/
theorem foldl_batchFinal_map (batches : List (List (Str × Bool))) :
    ∀ a0 : Str,
      batches.foldl
          (fun a b => if batchFinal b ≠ [] then trim (a ++ ' ' :: batchFinal b) else a) a0 =
        (batches.map batchFinal).foldl
          (fun a g => if g ≠ [] then trim (a ++ ' ' :: g) else a) a0 := by
  induction batches with
  | nil => intro a0; rfl
  | cons b bs ih => intro a0; exact ih _

theorem c4_transcript_amended (batches : List (List (Str × Bool)))
    (hseg : ∀ b ∈ batches, ∀ sg ∈ b, sg.2 = true → trim sg.1 = sg.1) :
    (runRecognition batches).1 =
      spaceJoin ((batches.map batchFinal).filter (fun g => !g.isEmpty)) ∧
    (∀ b, (runRecognition (batches ++ [b])).2 = batchInterim b) ∧
    handleSubmit
        ⟨(runRecognition [[("Hello".toList, true)], [("there".toList, true)]]).1,
          "friend".toList, false, [], true, true⟩ =
      .answered "Hello there friend".toList true := by
  refine ⟨?_, ?_, by decide⟩
  · rw [runRecognition, runRecognition_fst_go]
    show batches.foldl _ [] = _
    rw [foldl_batchFinal_map]
    rw [fold_trim_spaceJoin (batches.map batchFinal) [] trim_nil ?_]
    · simp
    · intro g hg
      obtain ⟨b, hb, rfl⟩ := List.mem_map.mp hg
      exact batchFinal_trimFixed b (hseg b hb)
  · intro b
    rw [runRecognition, List.foldl_append]
    rfl

/-- Witness for C4: the Hello/there two-batch run produces the space-joined
transcript, a trailing batch replaces the interim wholesale, and the submit
example delivers Hello there friend. -/
theorem c4_transcript_amended_witness :
    (runRecognition [[("Hello".toList, true)], [("there".toList, true)]]).1 =
      "Hello there".toList ∧
    (runRecognition ([[("Hello".toList, true)], [("there".toList, true)]] ++
        [[("fri".toList, false), ("end".toList, false)]])).2 = "friend".toList ∧
    handleSubmit
        ⟨(runRecognition [[("Hello".toList, true)], [("there".toList, true)]]).1,
          "friend".toList, false, [], true, true⟩ =
      .answered "Hello there friend".toList true := by
  have h := c4_transcript_amended [[("Hello".toList, true)], [("there".toList, true)]]
    (by decide)
  refine ⟨h.1.trans (by decide), ?_, h.2.2⟩
  exact (h.2.1 [("fri".toList, false), ("end".toList, false)]).trans (by decide)

/-! ## Turn-taking state machine (TestSession) -/

/-- Phase union type of TestSession. -/
inductive SessPhase
  | examinerSpeaking
  | studentATurn
  | studentBTurn
  | evaluating
  | results
deriving DecidableEq

/-- Component state of TestSession that the turn-taking protocol reads and
writes: question index, session record, phase, report, and the early-finish
confirmation flags. -/
structure SessState where
  currentQuestionIdx : Nat
  sessionData : SessionData
  phase : SessPhase
  report : Option FullReport
  isFinishing : Bool
  confirmExit : Bool
deriving DecidableEq

/-- Initial TestSession state: question 0, empty answer records, examiner
speaking. -/
def initialSessState : SessState :=
  { currentQuestionIdx := 0
    sessionData := { studentA := { answers := [] }, studentB := { answers := [] } }
    phase := .examinerSpeaking
    report := none
    isFinishing := false
    confirmExit := false }

/-- Placeholder question used to totalize the out-of-range index access. -/
def emptyQuestion : Question := { id := "", text := "", qpart := "", target := "" }

/-- The question at the given index of the plan. -/
def currentQuestion (p : DailyPlan) (idx : Nat) : Question :=
  p.questions.getD idx emptyQuestion

/-- Fallback report installed by finishSession when the evaluation call fails,
verbatim from the source. -/
def fallbackReport : FullReport :=
  { studentA :=
      { score := 0
        feedback := "Incomplete data or connection error."
        goodPoints := []
        badPoints := []
        suggestions := ["Check internet connection."] }
    studentB :=
      { score := 0
        feedback := "Incomplete data or connection error."
        goodPoints := []
        badPoints := []
        suggestions := ["Check internet connection."] }
    generalFeedback := "Session ended. We could not generate a full AI report, possibly due to network issues or no audio data recorded." }

/-- Synchronous part of finishSession: stop audio, enter the evaluating phase
and mark the evaluation in flight. -/
def finishSessionStart (s : SessState) : SessState :=
  { s with phase := .evaluating, isFinishing := true }

/-- goToNextQuestion: advance to the next question if any remain, otherwise
start finishing the session. -/
def goToNextQuestion (p : DailyPlan) (s : SessState) : SessState :=
  if s.currentQuestionIdx < p.questions.length - 1 then
    { s with currentQuestionIdx := s.currentQuestionIdx + 1, phase := .examinerSpeaking }
  else finishSessionStart s

/-- Events driving TestSession: the examiner-done button, each student's
submitted answer text together with whether it was delivered from the
manual-entry mode box (the manual Submit Answer button carries no disabled
attribute in the source, unlike the voice-mode buttons, which are disabled
outside that student's turn), the early-finish button, the 3-second
confirmation timeout, and the settling of the evaluation call. -/
inductive SessEvent
  | examinerDone
  | studentAComplete (text : String) (manualMode : Bool)
  | studentBComplete (text : String) (manualMode : Bool)
  | earlyFinishPress
  | confirmTimeout
  | evalSettled (outcome : Except String FullReport)

/-- One step of the TestSession protocol.  Guards encode where each handler is
reachable in the source: a student completion fires from a not-yet-answered
box (hasAnswered uses the truthiness of the saved answer, and replaces the
whole footer with a disabled Finished button in both modes) delivering
nonblank text, and is gated to that student's turn only in voice mode — the
manual-entry Submit Answer button has no disabled attribute, so in manual mode
the completion handler is reachable in any phase; the early-finish button is
absent from the evaluating and results screens; an event whose guard fails
leaves the state unchanged. -/
def sessStep (p : DailyPlan) (s : SessState) : SessEvent → SessState
  | .examinerDone =>
    if s.phase = .examinerSpeaking then { s with phase := .studentATurn } else s
  | .studentAComplete t manual =>
    if (s.phase = .studentATurn ∨ manual = true) ∧ t ≠ "" ∧
        (assocGet s.sessionData.studentA.answers (currentQuestion p s.currentQuestionIdx).id).getD "" = "" then
      { s with
        sessionData :=
          { s.sessionData with
            studentA :=
              { answers := objSet s.sessionData.studentA.answers (currentQuestion p s.currentQuestionIdx).id t } }
        phase := .studentBTurn }
    else s
  | .studentBComplete t manual =>
    if (s.phase = .studentBTurn ∨ manual = true) ∧ t ≠ "" ∧
        (assocGet s.sessionData.studentB.answers (currentQuestion p s.currentQuestionIdx).id).getD "" = "" then
      goToNextQuestion p
        { s with
          sessionData :=
            { s.sessionData with
              studentB :=
                { answers := objSet s.sessionData.studentB.answers (currentQuestion p s.currentQuestionIdx).id t } } }
    else s
  | .earlyFinishPress =>
    if s.phase = .evaluating ∨ (s.phase = .results ∧ s.report ≠ none) then s
    else if s.isFinishing then s
    else if s.confirmExit = false then { s with confirmExit := true }
    else finishSessionStart s
  | .confirmTimeout => { s with confirmExit := false }
  | .evalSettled outcome =>
    if s.phase = .evaluating then
      match outcome with
      | .ok r => { s with report := some r, phase := .results, isFinishing := false }
      | .error _ => { s with report := some fallbackReport, phase := .results, isFinishing := false }
    else s

/-- States reachable by the TestSession protocol from its initial state. -/
inductive SessReachable (p : DailyPlan) : SessState → Prop
  | init : SessReachable p initialSessState
  | next (s : SessState) (e : SessEvent) :
      SessReachable p s → SessReachable p (sessStep p s e)

theorem goToNextQuestion_sessionData (p : DailyPlan) (s : SessState) :
    (goToNextQuestion p s).sessionData = s.sessionData := by
  unfold goToNextQuestion finishSessionStart
  split <;> rfl

theorem sessStep_examinerDone_sessionData (p : DailyPlan) (s : SessState) :
    (sessStep p s .examinerDone).sessionData = s.sessionData := by
  simp only [sessStep]
  split <;> rfl

theorem sessStep_earlyFinish_sessionData (p : DailyPlan) (s : SessState) :
    (sessStep p s .earlyFinishPress).sessionData = s.sessionData := by
  simp only [sessStep]
  split
  · rfl
  · split
    · rfl
    · split <;> rfl

theorem sessStep_confirmTimeout_sessionData (p : DailyPlan) (s : SessState) :
    (sessStep p s .confirmTimeout).sessionData = s.sessionData := rfl

theorem sessStep_evalSettled_sessionData (p : DailyPlan) (s : SessState)
    (outcome : Except String FullReport) :
    (sessStep p s (.evalSettled outcome)).sessionData = s.sessionData := by
  simp only [sessStep]
  split
  · split <;> rfl
  · rfl

/-- Inductive invariant of the protocol: every recorded answer is nonblank
(submits deliver trimmed, nonblank text). -/
def sessInv (s : SessState) : Prop :=
  (∀ q v, assocGet s.sessionData.studentA.answers q = some v → v ≠ "") ∧
  (∀ q v, assocGet s.sessionData.studentB.answers q = some v → v ≠ "")

theorem sessInv_init : sessInv initialSessState :=
  ⟨fun _ _ hv => Option.noConfusion hv, fun _ _ hv => Option.noConfusion hv⟩

theorem sessInv_step (p : DailyPlan) (s : SessState) (e : SessEvent)
    (hinv : sessInv s) : sessInv (sessStep p s e) := by
  obtain ⟨inv3, inv4⟩ := hinv
  cases e with
  | examinerDone =>
    rw [sessInv, sessStep_examinerDone_sessionData]
    exact ⟨inv3, inv4⟩
  | earlyFinishPress =>
    rw [sessInv, sessStep_earlyFinish_sessionData]
    exact ⟨inv3, inv4⟩
  | confirmTimeout =>
    exact ⟨inv3, inv4⟩
  | evalSettled outcome =>
    rw [sessInv, sessStep_evalSettled_sessionData]
    exact ⟨inv3, inv4⟩
  | studentAComplete t manual =>
    by_cases hg : (s.phase = .studentATurn ∨ manual = true) ∧ t ≠ "" ∧
        (assocGet s.sessionData.studentA.answers (currentQuestion p s.currentQuestionIdx).id).getD "" = ""
    · simp only [sessStep, if_pos hg]
      obtain ⟨hph, htne, hfresh⟩ := hg
      refine ⟨?_, inv4⟩
      intro q v hv
      try dsimp only at hv
      by_cases hqid : (currentQuestion p s.currentQuestionIdx).id = q
      · subst hqid
        rw [assocGet_objSet_self] at hv
        exact Option.some.inj hv ▸ htne
      · rw [assocGet_objSet_ne _ _ _ _ hqid] at hv
        exact inv3 q v hv
    · simp only [sessStep, if_neg hg]
      exact ⟨inv3, inv4⟩
  | studentBComplete t manual =>
    by_cases hg : (s.phase = .studentBTurn ∨ manual = true) ∧ t ≠ "" ∧
        (assocGet s.sessionData.studentB.answers (currentQuestion p s.currentQuestionIdx).id).getD "" = ""
    · simp only [sessStep, if_pos hg]
      obtain ⟨hph, htne, hfresh⟩ := hg
      rw [sessInv, goToNextQuestion_sessionData]
      refine ⟨inv3, ?_⟩
      intro q v hv
      try dsimp only at hv
      by_cases hqid : (currentQuestion p s.currentQuestionIdx).id = q
      · subst hqid
        rw [assocGet_objSet_self] at hv
        exact Option.some.inj hv ▸ htne
      · rw [assocGet_objSet_ne _ _ _ _ hqid] at hv
        exact inv4 q v hv
    · simp only [sessStep, if_neg hg]
      exact ⟨inv3, inv4⟩

theorem sessReachable_inv (p : DailyPlan) (s : SessState) (h : SessReachable p s) :
    sessInv s := by
  induction h with
  | init => exact sessInv_init
  | next s e _ ih => exact sessInv_step p s e ih

/-- One-question plan used to drive the concrete protocol traces. -/
def witnessPlan : DailyPlan :=
  { day := 1
    topic := "Hobbies"
    questions := [{ id := "q1", text := "Do you like football?", qpart := "Part 1", target := "Both" }] }

/-- C2, evaluation of the code at the failing input.  In the initial state the
phase is ExaminerSpeaking and nothing is recorded; a manual-mode submit by
participant B (the manual Submit Answer button carries no disabled attribute
in the source) records B's answer for q1 and, the plan having one question,
even advances the session to the evaluating phase — while A's answer map
still lacks q1.  Thus B's answer for a question is recorded without A's ever
being recorded, violating the claimed ordering invariant. -/
theorem c2_turn_ordering_violation :
    initialSessState.phase = SessPhase.examinerSpeaking ∧
    assocGet (sessStep witnessPlan initialSessState
        (SessEvent.studentBComplete "Me too" true)).sessionData.studentB.answers "q1" =
      some "Me too" ∧
    assocGet (sessStep witnessPlan initialSessState
        (SessEvent.studentBComplete "Me too" true)).sessionData.studentA.answers "q1" =
      none ∧
    (sessStep witnessPlan initialSessState
        (SessEvent.studentBComplete "Me too" true)).phase = SessPhase.evaluating := by
  decide

/-- C5.  From the Evaluating phase the machine always reaches Results when the
evaluation settles, success or failure: on success the returned report is
installed, on failure the degraded zero-score fallback report is substituted,
and in both cases the phase becomes Results and the in-flight flag clears, so
the machine never stalls in Evaluating. -/
theorem c5_evaluating_to_results (p : DailyPlan) (s : SessState)
    (outcome : Except String FullReport) (h : s.phase = .evaluating) :
    (sessStep p s (.evalSettled outcome)).phase = .results ∧
    (sessStep p s (.evalSettled outcome)).report =
      some (match outcome with | .ok r => r | .error _ => fallbackReport) ∧
    (sessStep p s (.evalSettled outcome)).isFinishing = false := by
  simp only [sessStep, if_pos h]
  cases outcome with
  | ok r => exact ⟨rfl, rfl, rfl⟩
  | error err => exact ⟨rfl, rfl, rfl⟩

/-- Witness for C5: a failed evaluation from the evaluating phase still lands
in Results with the fallback report installed. -/
theorem c5_evaluating_to_results_witness :
    (sessStep witnessPlan (finishSessionStart initialSessState)
        (SessEvent.evalSettled (Except.error "network"))).phase = .results ∧
    (sessStep witnessPlan (finishSessionStart initialSessState)
        (SessEvent.evalSettled (Except.error "network"))).report = some fallbackReport ∧
    (sessStep witnessPlan (finishSessionStart initialSessState)
        (SessEvent.evalSettled (Except.error "network"))).isFinishing = false :=
  c5_evaluating_to_results witnessPlan (finishSessionStart initialSessState)
    (Except.error "network") rfl

/-- C6, counterexample to the claim as stated.  A fresh answer for participant
A is recorded by a manual-mode submit taken in the ExaminerSpeaking phase —
not at A's turn completion — because the manual Submit Answer button carries
no disabled attribute in the source. -/
theorem c6_claim_counterexample :
    assocGet initialSessState.sessionData.studentA.answers "q1" = none ∧
    initialSessState.phase ≠ SessPhase.studentATurn ∧
    assocGet (sessStep witnessPlan initialSessState
        (SessEvent.studentAComplete "I like football" true)).sessionData.studentA.answers "q1" =
      some "I like football" := by
  decide

/-- C6, amended.  In every reachable state, along every step: an answer
already present for a participant and question is preserved with the same
value (never overwritten or removed, so the record grows monotonically and is
written at most once), and a fresh answer appears for a participant and
question only through that participant's completion event, for the current
question, carrying the submitted text — during that participant's turn, or
from the manual-entry submit, which the source does not confine to the turn. -/
theorem c6_write_once_amended (p : DailyPlan) (s : SessState) (h : SessReachable p s)
    (e : SessEvent) (q v : String) :
    (assocGet s.sessionData.studentA.answers q = some v →
      assocGet (sessStep p s e).sessionData.studentA.answers q = some v) ∧
    (assocGet s.sessionData.studentB.answers q = some v →
      assocGet (sessStep p s e).sessionData.studentB.answers q = some v) ∧
    (assocGet s.sessionData.studentA.answers q = none →
      assocGet (sessStep p s e).sessionData.studentA.answers q = some v →
      ∃ m, e = .studentAComplete v m ∧ q = (currentQuestion p s.currentQuestionIdx).id ∧
        (s.phase = .studentATurn ∨ m = true)) ∧
    (assocGet s.sessionData.studentB.answers q = none →
      assocGet (sessStep p s e).sessionData.studentB.answers q = some v →
      ∃ m, e = .studentBComplete v m ∧ q = (currentQuestion p s.currentQuestionIdx).id ∧
        (s.phase = .studentBTurn ∨ m = true)) := by
  obtain ⟨inv3, inv4⟩ := sessReachable_inv p s h
  cases e with
  | examinerDone =>
    rw [sessStep_examinerDone_sessionData]
    exact ⟨fun hv => hv, fun hv => hv,
      fun hnone hsome => absurd (hnone.symm.trans hsome) (by simp),
      fun hnone hsome => absurd (hnone.symm.trans hsome) (by simp)⟩
  | earlyFinishPress =>
    rw [sessStep_earlyFinish_sessionData]
    exact ⟨fun hv => hv, fun hv => hv,
      fun hnone hsome => absurd (hnone.symm.trans hsome) (by simp),
      fun hnone hsome => absurd (hnone.symm.trans hsome) (by simp)⟩
  | confirmTimeout =>
    exact ⟨fun hv => hv, fun hv => hv,
      fun hnone hsome => absurd (hnone.symm.trans hsome) (by simp),
      fun hnone hsome => absurd (hnone.symm.trans hsome) (by simp)⟩
  | evalSettled outcome =>
    rw [sessStep_evalSettled_sessionData]
    exact ⟨fun hv => hv, fun hv => hv,
      fun hnone hsome => absurd (hnone.symm.trans hsome) (by simp),
      fun hnone hsome => absurd (hnone.symm.trans hsome) (by simp)⟩
  | studentAComplete t manual =>
    by_cases hg : (s.phase = .studentATurn ∨ manual = true) ∧ t ≠ "" ∧
        (assocGet s.sessionData.studentA.answers (currentQuestion p s.currentQuestionIdx).id).getD "" = ""
    · simp only [sessStep, if_pos hg]
      obtain ⟨hph, htne, hfresh⟩ := hg
      refine ⟨?_, fun hv => hv, ?_, ?_⟩
      · intro hv
        try dsimp only
        by_cases hqid : (currentQuestion p s.currentQuestionIdx).id = q
        · subst hqid
          rw [hv] at hfresh
          exact absurd (by simpa using hfresh) (inv3 _ v hv)
        · rw [assocGet_objSet_ne _ _ _ _ hqid]
          exact hv
      · intro hnone hsome
        try dsimp only at hsome
        by_cases hqid : (currentQuestion p s.currentQuestionIdx).id = q
        · subst hqid
          rw [assocGet_objSet_self] at hsome
          exact ⟨manual, by rw [Option.some.inj hsome], rfl, hph⟩
        · rw [assocGet_objSet_ne _ _ _ _ hqid] at hsome
          exact absurd (hnone.symm.trans hsome) (by simp)
      · intro hnone hsome
        try dsimp only at hsome
        exact absurd (hnone.symm.trans hsome) (by simp)
    · simp only [sessStep, if_neg hg]
      exact ⟨fun hv => hv, fun hv => hv,
        fun hnone hsome => absurd (hnone.symm.trans hsome) (by simp),
        fun hnone hsome => absurd (hnone.symm.trans hsome) (by simp)⟩
  | studentBComplete t manual =>
    by_cases hg : (s.phase = .studentBTurn ∨ manual = true) ∧ t ≠ "" ∧
        (assocGet s.sessionData.studentB.answers (currentQuestion p s.currentQuestionIdx).id).getD "" = ""
    · simp only [sessStep, if_pos hg]
      obtain ⟨hph, htne, hfresh⟩ := hg
      rw [goToNextQuestion_sessionData]
      refine ⟨fun hv => hv, ?_, ?_, ?_⟩
      · intro hv
        try dsimp only
        by_cases hqid : (currentQuestion p s.currentQuestionIdx).id = q
        · subst hqid
          rw [hv] at hfresh
          exact absurd (by simpa using hfresh) (inv4 _ v hv)
        · rw [assocGet_objSet_ne _ _ _ _ hqid]
          exact hv
      · intro hnone hsome
        try dsimp only at hsome
        exact absurd (hnone.symm.trans hsome) (by simp)
      · intro hnone hsome
        try dsimp only at hsome
        by_cases hqid : (currentQuestion p s.currentQuestionIdx).id = q
        · subst hqid
          rw [assocGet_objSet_self] at hsome
          exact ⟨manual, by rw [Option.some.inj hsome], rfl, hph⟩
        · rw [assocGet_objSet_ne _ _ _ _ hqid] at hsome
          exact absurd (hnone.symm.trans hsome) (by simp)
    · simp only [sessStep, if_neg hg]
      exact ⟨fun hv => hv, fun hv => hv,
        fun hnone hsome => absurd (hnone.symm.trans hsome) (by simp),
        fun hnone hsome => absurd (hnone.symm.trans hsome) (by simp)⟩

/-- Witness for C6: after A answers q1 in A's turn, a further event leaves A's
recorded answer for q1 intact and unchanged. -/
theorem c6_write_once_amended_witness :
    assocGet (sessStep witnessPlan (sessStep witnessPlan (sessStep witnessPlan initialSessState
        SessEvent.examinerDone) (SessEvent.studentAComplete "I like football" false))
        SessEvent.confirmTimeout).sessionData.studentA.answers "q1" =
      some "I like football" :=
  (c6_write_once_amended witnessPlan _
    (SessReachable.next _ _ (SessReachable.next _ _ SessReachable.init))
    SessEvent.confirmTimeout "q1" "I like football").1 (by decide)
